import Mathlib

set_option maxRecDepth 8000

/-! Shallow embedding of src/meshtastic_bot.py (a Meshtastic channel utility
bot) and proofs about its mailbox, resolver, dispatcher and event router.
Timestamps are modelled as integers (every property below concerns only the
ordering and differences of time values), Python dicts keyed by strings as
association lists in insertion order, and fallible lookups as Option. -/

/-- Python whitespace characters (the default set of str.strip and str.split). -/
def pyIsWs (c : Char) : Bool :=
  c = ' ' || c = '\t' || c = '\n' || c = '\r' || c = Char.ofNat 11 || c = Char.ofNat 12

/-- Python str.strip on a character list: drop whitespace at both ends. -/
def stripChars (l : List Char) : List Char :=
  ((l.dropWhile pyIsWs).reverse.dropWhile pyIsWs).reverse

/-- Python str.strip. -/
def pyStrip (s : String) : String := String.mk (stripChars s.data)

/-- Python str.lower (ASCII case folding, as used on node names and hex ids). -/
def lowerStr (s : String) : String := String.mk (s.data.map Char.toLower)

/-- Worker for pyWords: split on whitespace runs, accumulator holds the
current word reversed. -/
def wordsGo : List Char → List Char → List String
  | [], acc => if acc.isEmpty then [] else [String.mk acc.reverse]
  | c :: cs, acc =>
    if pyIsWs c then
      if acc.isEmpty then wordsGo cs [] else String.mk acc.reverse :: wordsGo cs []
    else wordsGo cs (c :: acc)

/-- Python str.split() with no argument. -/
def pyWords (s : String) : List String := wordsGo s.data []

/-- Python sep.join(parts). -/
def joinWith (sep : String) : List String → String
  | [] => ""
  | [x] => x
  | x :: y :: xs => x ++ sep ++ joinWith sep (y :: xs)

/-- Python `a or b` for two optional strings (None and "" are falsy). -/
def pyOrOpt (a b : Option String) : Option String :=
  match a with
  | some s => if s = "" then b else some s
  | none => b

/-- Python `a or b` where the fallback is a plain string. -/
def pyOrStr (a : Option String) (b : String) : String :=
  match a with
  | some s => if s = "" then b else s
  | none => b

/-- Python `a or b or None` on two plain strings ("" is falsy). -/
def pyOrStr2 (a b : String) : Option String :=
  if a = "" then (if b = "" then none else some b) else some a

/-- Leading-segment test on character lists (Python str.startswith). -/
def isLead : List Char → List Char → Bool
  | [], _ => true
  | _ :: _, [] => false
  | a :: as, b :: bs => a == b && isLead as bs

/-- Python text.startswith(pre). -/
def startsWithStr (pre s : String) : Bool := isLead pre.data s.data

/-- Python text[n:] by code points. -/
def dropStr (n : Nat) (s : String) : String := String.mk (s.data.drop n)

/-- Digit characters of Python's "%x" format (lowercase hex). -/
def hexDigitChar (d : Nat) : Char :=
  if d < 10 then Char.ofNat (48 + d) else Char.ofNat (87 + d)

/-- Python f-string formatting of a 32-bit node number with spec "08x":
eight lowercase hex digits, most significant first. -/
def hex8 (n : Nat) : List Char :=
  [hexDigitChar (n / 268435456 % 16), hexDigitChar (n / 16777216 % 16),
   hexDigitChar (n / 1048576 % 16), hexDigitChar (n / 65536 % 16),
   hexDigitChar (n / 4096 % 16), hexDigitChar (n / 256 % 16),
   hexDigitChar (n / 16 % 16), hexDigitChar (n % 16)]

/-- meshtastic_bot.clamp: keep strings of length at most n, otherwise
truncate to max(0, n-1) characters and append the ellipsis marker. -/
def clamp (s : String) (n : Nat) : String :=
  if s.length ≤ n then s else String.mk (s.data.take (n - 1) ++ ['…'])

/-- meshtastic_bot.format_duration: render seconds as "Xd Xh Xm Xs",
omitting zero leading components. Python's int() truncation is the identity
on the integer time model; Python // and % are ediv/emod for the positive
divisors used here. -/
def format_duration (x : ℤ) : String :=
  let s0 := x
  let days := Int.ediv s0 86400
  let s1 := Int.emod s0 86400
  let hours := Int.ediv s1 3600
  let s2 := Int.emod s1 3600
  let minutes := Int.ediv s2 60
  let s3 := Int.emod s2 60
  let parts :=
    (if days ≠ 0 then [toString days ++ "d"] else []) ++
    (if hours ≠ 0 then [toString hours ++ "h"] else []) ++
    (if minutes ≠ 0 then [toString minutes ++ "m"] else []) ++
    [toString s3 ++ "s"]
  joinWith " " parts

/-- meshtastic_bot.PendingMessage. -/
structure PendingMessage where
  created_ts : ℤ
  from_display : String
  text : String
deriving DecidableEq

/-- The Mailbox store: dict from destination key to message list, in key
insertion order. -/
abbrev Store := List (String × List PendingMessage)

/-- First binding of a key in the store (dict lookup). -/
def assocFind (s : Store) (k : String) : Option (List PendingMessage) :=
  (s.find? (fun e => e.1 == k)).map (fun e => e.2)

/-- The per-message retention test of Mailbox._purge: created_ts >= cutoff. -/
def keepAt (cutoff : ℤ) (m : PendingMessage) : Bool := decide (cutoff ≤ m.created_ts)

/-- One key of Mailbox._purge: filter the messages, drop the key when the
filtered list is empty. -/
def purgeEntry (c : ℤ) (e : String × List PendingMessage) :
    Option (String × List PendingMessage) :=
  if (e.2.filter (keepAt c)).isEmpty then none else some (e.1, e.2.filter (keepAt c))

/-- Mailbox._purge over the whole store. -/
def purgeStore (c : ℤ) (s : Store) : Store := s.filterMap (purgeEntry c)

/-- dict.setdefault(k, []).append(m): append to the key's list, creating the
key at the end of the dict when absent. -/
def appendAt (k : String) (m : PendingMessage) : Store → Store
  | [] => [(k, [m])]
  | e :: rest => if e.1 = k then (e.1, e.2 ++ [m]) :: rest else e :: appendAt k m rest

/-- dict.pop(k, default): remove the key's binding. -/
def removeKey (k : String) (s : Store) : Store := s.filter (fun e => e.1 != k)

/-- meshtastic_bot.Mailbox: ttl plus keyed store. -/
structure Mailbox where
  ttl_seconds : Int
  store : Store
deriving DecidableEq

/-- Mailbox._purge with cutoff now - ttl_seconds. -/
def Mailbox.purge (now : ℤ) (mb : Mailbox) : Mailbox :=
  ⟨mb.ttl_seconds, purgeStore (now - (mb.ttl_seconds : ℤ)) mb.store⟩

/-- Mailbox.add: purge then append. -/
def Mailbox.add (now : ℤ) (k : String) (m : PendingMessage) (mb : Mailbox) : Mailbox :=
  let p := mb.purge now
  ⟨p.ttl_seconds, appendAt k m p.store⟩

/-- Mailbox.get_for: purge then non-destructive snapshot (the purge itself
mutates the store, so the updated mailbox is returned alongside). -/
def Mailbox.get_for (now : ℤ) (k : String) (mb : Mailbox) :
    List PendingMessage × Mailbox :=
  let p := mb.purge now
  ((assocFind p.store k).getD [], p)

/-- Mailbox.pop_for: purge then remove-and-return. -/
def Mailbox.pop_for (now : ℤ) (k : String) (mb : Mailbox) :
    List PendingMessage × Mailbox :=
  let p := mb.purge now
  ((assocFind p.store k).getD [], ⟨p.ttl_seconds, removeKey k p.store⟩)

/-- A sequence of Mailbox.add calls for one key, as (call time, message)
pairs processed left to right. -/
def runAdds (k : String) (adds : List (ℤ × PendingMessage)) (mb : Mailbox) : Mailbox :=
  adds.foldl (fun acc a => acc.add a.1 k a.2) mb

/-- The "user" sub-dict of a node directory entry (fields the bot reads). -/
structure NodeUser where
  id : Option String
  longName : Option String
  shortName : Option String
deriving DecidableEq

/-- One entry of iface.nodes. -/
structure NodeEntry where
  user : Option NodeUser
deriving DecidableEq

/-- The live node directory: dict from node key to entry, iteration order. -/
abbrev Nodes := List (String × NodeEntry)

/-- safe_get(v, ["user", "id"]). -/
def userId (v : NodeEntry) : Option String := v.user.bind (fun u => u.id)

/-- safe_get(v, ["user", "longName"]). -/
def userLong (v : NodeEntry) : Option String := v.user.bind (fun u => u.longName)

/-- safe_get(v, ["user", "shortName"]). -/
def userShort (v : NodeEntry) : Option String := v.user.bind (fun u => u.shortName)

/-- MeshBot.lookup_node_name: direct key lookup, then scan for a matching
user.id, then short name falling back to long name. -/
def lookup_node_name (nodes : Nodes) (node_key : String) : Option String :=
  let n0 := (nodes.find? (fun e => e.1 == node_key)).map (fun e => e.2)
  let n1 := match n0 with
    | some v => some v
    | none => (nodes.find? (fun e => userId e.2 == some node_key)).map (fun e => e.2)
  match n1 with
  | none => none
  | some v => pyOrOpt (userShort v) (userLong v)

/-- A character of [0-9a-fA-F]. -/
def isHexAny (c : Char) : Bool :=
  ('0' ≤ c && c ≤ '9') || ('a' ≤ c && c ≤ 'f') || ('A' ≤ c && c ≤ 'F')

/-- re.fullmatch of the canonical hex-id pattern: "!" then 8 hex digits. -/
def matchesHexId (s : String) : Bool :=
  match s.data with
  | c :: rest => c == '!' && rest.length == 8 && rest.all isHexAny
  | [] => false

/-- The stripped longName compared in the resolver's directory scan. -/
def entryLong (v : NodeEntry) : String := pyStrip ((userLong v).getD "")

/-- The stripped shortName compared in the resolver's directory scan. -/
def entryShort (v : NodeEntry) : String := pyStrip ((userShort v).getD "")

/-- MeshBot.resolve_target: canonical hex ids resolve to their lowercase
form without consulting the directory; otherwise the first directory entry
whose long or short name matches case-insensitively wins; otherwise
(none, none). -/
def resolve_target (nodes : Nodes) (token0 : String) :
    Option String × Option String :=
  let token := pyStrip token0
  if matchesHexId token then
    (some (lowerStr token), lookup_node_name nodes (lowerStr token))
  else
    let tl := lowerStr token
    match nodes.find? (fun e =>
        lowerStr (entryLong e.2) == tl || lowerStr (entryShort e.2) == tl) with
    | some e => (some e.1, pyOrStr2 (entryShort e.2) (entryLong e.2))
    | none => (none, none)

/-- A packet field value that is either an int node number or a string id. -/
inductive SenderVal
  | int (n : Nat)
  | str (s : String)
deriving DecidableEq

/-- Python truthiness of such a value (0 and "" are falsy). -/
def senderTruthy : SenderVal → Bool
  | .int n => n != 0
  | .str s => s != ""

/-- packet.get("fromId") or packet.get("from"). -/
def pyOrVal (a b : Option SenderVal) : Option SenderVal :=
  match a with
  | some v => if senderTruthy v then some v else b
  | none => b

/-- The fields of an inbound packet dict that on_receive reads. channelIdx
is the already-extracted result of packet_channel_index (which walks the
"channel" / "decoded.channel" / "decoded.channelIndex" / "rx.channel"
paths); rxSnr and rxRssi carry their rendered numeric values. -/
structure Packet where
  channelIdx : Option Int
  text : Option String
  fromId : Option SenderVal
  fromRaw : Option SenderVal
  rxSnr : Option String
  rxRssi : Option String
deriving DecidableEq

/-- Conversion of a fromId / from value to the string sender key: ints are
formatted as f"!{n:08x}", strings pass through str() unchanged. -/
def senderKeyStr : SenderVal → String
  | .int n => "!" ++ String.mk (hex8 n)
  | .str s => s

/-- The canonical key of a 32-bit node number: "!" + 8 lowercase hex digits. -/
def canonicalKeyOfNum (n : Nat) : String := "!" ++ String.mk (hex8 n)

/-- sender_key extraction in MeshBot.on_receive (lines 445-448): missing
senders become "unknown". -/
def routerSenderKey (p : Packet) : String :=
  match pyOrVal p.fromId p.fromRaw with
  | some v => senderKeyStr v
  | none => "unknown"

/-- sender_key extraction in MeshBot.maybe_deliver_mailbox (lines 484-489):
missing or empty senders abort delivery. -/
def deliverySenderKey (p : Packet) : Option String :=
  match pyOrVal p.fromId p.fromRaw with
  | some v => if senderKeyStr v = "" then none else some (senderKeyStr v)
  | none => none

/-- MeshBot.maybe_deliver_mailbox: pop pending messages for the packet's
sender and emit one delivery line per message (raw, before send_channel
clamping). The pop's purge takes effect even when nothing is pending. -/
def maybe_deliver (nodes : Nodes) (now : ℤ) (p : Packet) (mb : Mailbox) :
    Mailbox × List String :=
  match deliverySenderKey p with
  | none => (mb, [])
  | some sk =>
    let res := mb.pop_for now sk
    if res.1.isEmpty then (res.2, [])
    else
      let dest_name := pyOrStr (lookup_node_name nodes sk) sk
      (res.2, res.1.map (fun m =>
        "📮 For " ++ dest_name ++ ": from " ++ m.from_display ++ " (" ++
          format_duration (now - m.created_ts) ++ "): " ++ m.text))

/-- The configuration fields the router and handlers read. commandMarker
embeds the command_prefix value; max_reply_len is the configured positive
reply limit. -/
structure BotCfg where
  channel_index : Int
  commandMarker : String
  max_reply_len : Nat
  mailbox_ttl_seconds : Int
  weather_default_place : String
deriving DecidableEq

/-- External collaborators (the /proc/uptime read, the weather HTTP call and
the airtime metric extraction with its float rendering) supplied as
parameters, since they are I/O outside this file's scope. -/
structure Env where
  sysUptime : Option ℤ
  weatherReply : String → String
  airTx : Option String
  airRx : Option String
  airCh : Option String

/-- MeshBot.send_channel clamps every outbound text to max_reply_len. -/
def sendCh (cfg : BotCfg) (text : String) : String := clamp text cfg.max_reply_len

/-- MeshBot.cmd_help reply text. -/
def helpReply : String :=
  "🤖 Commands: !help, !ping, !whoami, !nodes, !uptime, !weather [place], !air, !msg <cílový_node|!hexid|shortName|longName> <text>, !inbox"

/-- MeshBot.cmd_ping. -/
def cmd_ping (p : Packet) : String :=
  let extras :=
    (match p.rxSnr with | some s => ["SNR " ++ s] | none => []) ++
    (match p.rxRssi with | some r => ["RSSI " ++ r] | none => [])
  let extra_txt := if extras.isEmpty then "" else " (" ++ joinWith ", " extras ++ ")"
  "pong 🏓" ++ extra_txt

/-- MeshBot.cmd_whoami. -/
def cmd_whoami (nodes : Nodes) (sender_key : String) : String :=
  let disp := match pyOrOpt (lookup_node_name nodes sender_key) none with
    | some name => name ++ " (" ++ sender_key ++ ")"
    | none => sender_key
  "You are: " ++ disp

/-- MeshBot.cmd_nodes. -/
def cmd_nodes (nodes : Nodes) : String :=
  let count := nodes.length
  let names := (nodes.take 8).map (fun e =>
    pyOrStr (pyOrOpt (userShort e.2) (userLong e.2)) e.1)
  let tl := if names.isEmpty then "" else " | " ++ joinWith ", " names
  "📡 Nodes: " ++ toString count ++ tl

/-- MeshBot.cmd_uptime (the system uptime read is external, via env). -/
def cmd_uptime (env : Env) (now started : ℤ) : String :=
  let bu := format_duration (now - started)
  match env.sysUptime with
  | some su => "⏱️ Uptime: bot " ++ bu ++ ", system " ++ format_duration su
  | none => "⏱️ Uptime: bot " ++ bu

/-- MeshBot.cmd_weather (the HTTP fetch is external, via env). -/
def cmd_weather (cfg : BotCfg) (env : Env) (args : List String) : String :=
  let place := pyStrip (joinWith " " args)
  let place := if place = "" then cfg.weather_default_place else place
  env.weatherReply place

/-- MeshBot.cmd_air (metric extraction is external; the env fields hold the
fmt_pct-rendered values, absent when the metric is None). -/
def cmd_air (env : Env) : String :=
  match env.airTx, env.airRx, env.airCh with
  | none, none, none =>
    "📡 Airtime: metrics not available (enable telemetry on the node, or wait for an update)."
  | tx, rx, ch =>
    "📡 Airtime: TX " ++ tx.getD "?" ++ " | RX " ++ rx.getD "?" ++ " | CH " ++ ch.getD "?"

/-- The from_display label rendered at message-creation time in cmd_msg. -/
def fromDisplayOf (nodes : Nodes) (sender_key : String) : String :=
  match pyOrOpt (lookup_node_name nodes sender_key) none with
  | some n => n ++ "(" ++ sender_key ++ ")"
  | none => sender_key

/-- MeshBot.cmd_msg: resolve the target and store the message, its text
clamped to 400 characters. -/
def cmd_msg (cfg : BotCfg) (nodes : Nodes) (now : ℤ) (sender_key : String)
    (args : List String) (mb : Mailbox) : Mailbox × List String :=
  if args.length < 2 then
    (mb, ["Usage: !msg <cílový_node|!hexid|shortName|longName> <text>"])
  else
    let target_token := args.headD ""
    let message_text := pyStrip (joinWith " " args.tail)
    if message_text = "" then (mb, ["❌ Missing message text."])
    else
      match resolve_target nodes target_token with
      | (none, _) =>
        (mb, ["❌ Cannot find node '" ++ target_token ++ "'. Try !nodes for a list."])
      | (some target_key, target_name) =>
        let mb := mb.add now target_key ⟨now, fromDisplayOf nodes sender_key, clamp message_text 400⟩
        let pretty_target := pyOrStr target_name target_key
        (mb, ["✅ Saved to mailbox for " ++ pretty_target ++
              ". Will deliver when active on channel " ++ toString cfg.channel_index ++ "."])

/-- MeshBot.cmd_inbox: peek at the sender's pending messages. -/
def cmd_inbox (now : ℤ) (sender_key : String) (mb : Mailbox) :
    Mailbox × List String :=
  let res := mb.get_for now sender_key
  if res.1.isEmpty then (res.2, ["📭 Inbox: empty."])
  else
    let lines := (res.1.take 3).map (fun m =>
      "- od " ++ m.from_display ++ " (" ++ format_duration (now - m.created_ts) ++ "): " ++ clamp m.text 80)
    let more := if res.1.length > 3 then " (+" ++ toString (res.1.length - 3) ++ " more)" else ""
    (res.2, ["📬 Inbox:\n" ++ joinWith "\n" lines ++ more])

/-- The unknown-command reply of MeshBot.on_receive line 477. -/
def unknownReply (cmd : String) : String :=
  "❓ Unknown command '" ++ cmd ++ "'. Try !help"

/-- The if/elif command dispatch of MeshBot.on_receive (lines 457-477).
Returns the updated mailbox and the texts sent on the channel (already
clamped by send_channel), in order. -/
def runCommand (cfg : BotCfg) (env : Env) (nodes : Nodes) (now started : ℤ)
    (p : Packet) (sender_key : String) (cmd : String) (args : List String)
    (mb : Mailbox) : Mailbox × List String :=
  if cmd = "help" ∨ cmd = "?" then (mb, [sendCh cfg helpReply])
  else if cmd = "ping" then (mb, [sendCh cfg (cmd_ping p)])
  else if cmd = "whoami" then (mb, [sendCh cfg (cmd_whoami nodes sender_key)])
  else if cmd = "nodes" then (mb, [sendCh cfg (cmd_nodes nodes)])
  else if cmd = "uptime" then (mb, [sendCh cfg (cmd_uptime env now started)])
  else if cmd = "weather" then (mb, [sendCh cfg (cmd_weather cfg env args)])
  else if cmd = "air" then (mb, [sendCh cfg (cmd_air env)])
  else if cmd = "msg" then
    let r := cmd_msg cfg nodes now sender_key args mb
    (r.1, r.2.map (sendCh cfg))
  else if cmd = "inbox" then
    let r := cmd_inbox now sender_key mb
    (r.1, r.2.map (sendCh cfg))
  else (mb, [sendCh cfg (unknownReply cmd)])

/-- MeshBot.on_receive for a structured packet: channel filter, then
opportunistic mailbox delivery, then command dispatch for prefix-marked
text. Returns the mailbox afterwards and the clamped texts sent. -/
def onReceive (cfg : BotCfg) (env : Env) (nodes : Nodes) (now started : ℤ)
    (p : Packet) (mb : Mailbox) : Mailbox × List String :=
  match p.channelIdx with
  | none => (mb, [])
  | some ch =>
    if ch = cfg.channel_index then
      let d := maybe_deliver nodes now p mb
      let sends1 := d.2.map (sendCh cfg)
      match p.text with
      | none => (d.1, sends1)
      | some t0 =>
        let t := pyStrip t0
        if t = "" then (d.1, sends1)
        else if startsWithStr cfg.commandMarker t then
          let sender_key := routerSenderKey p
          let cmdline := pyStrip (dropStr cfg.commandMarker.length t)
          if cmdline = "" then (d.1, sends1)
          else
            let parts := pyWords cmdline
            let cmd := lowerStr (parts.headD "")
            let args := parts.tail
            let r := runCommand cfg env nodes now started p sender_key cmd args d.1
            (r.1, sends1 ++ r.2)
        else (d.1, sends1)
    else (mb, [])

/-- Subchunk matching at the head of a character list. -/
def isSubChunkAt : List Char → List Char → Bool
  | [], _ => true
  | _ :: _, [] => false
  | n :: ns, h :: hs => n == h && isSubChunkAt ns hs

/-- Substring containment on character lists (needle occurs somewhere). -/
def hasSubChunk (needle : List Char) : List Char → Bool
  | [] => needle.isEmpty
  | c :: rest => isSubChunkAt needle (c :: rest) || hasSubChunk needle rest

/-! Helper lemmas. -/

theorem string_mk_data (s : String) : String.mk s.data = s := rfl

theorem string_length_mk (l : List Char) : (String.mk l).length = l.length := rfl

theorem string_data_append (a b : String) : (a ++ b).data = a.data ++ b.data := by
  cases a; cases b; rfl

theorem string_length_append (a b : String) :
    (a ++ b).length = a.length + b.length := by
  cases a with
  | mk da =>
    cases b with
    | mk db => exact List.length_append da db

theorem clamp_of_le {s : String} {n : Nat} (h : s.length ≤ n) : clamp s n = s := by
  simp [clamp, h]

theorem clamp_length_of_lt {s : String} {n : Nat} (h1 : 1 ≤ n) (h2 : n < s.length) :
    (clamp s n).length = n := by
  rw [clamp, if_neg (by omega)]
  rw [string_length_mk, List.length_append, List.length_take]
  have hd : s.length = s.data.length := rfl
  simp only [List.length_cons, List.length_nil]
  omega

theorem clamp_last_of_lt {s : String} {n : Nat} (h2 : n < s.length) :
    (clamp s n).data.getLast? = some '…' := by
  rw [clamp, if_neg (by omega)]
  exact List.getLast?_concat _

theorem clamp_length_le {s : String} {n : Nat} (h : 1 ≤ n) :
    (clamp s n).length ≤ n := by
  by_cases hc : s.length ≤ n
  · rw [clamp_of_le hc]; omega
  · rw [clamp_length_of_lt h (by omega)]

theorem pyIsWs_true_iff (c : Char) :
    pyIsWs c = true ↔
      c = ' ' ∨ c = '\t' ∨ c = '\n' ∨ c = '\r' ∨ c = Char.ofNat 11 ∨ c = Char.ofNat 12 := by
  unfold pyIsWs
  simp only [Bool.or_eq_true, decide_eq_true_eq, or_assoc]

theorem hex_not_ws {c : Char} (h : isHexAny c = true) : pyIsWs c = false := by
  cases hw : pyIsWs c
  · rfl
  · exfalso
    rcases (pyIsWs_true_iff c).mp hw with h1 | h1 | h1 | h1 | h1 | h1 <;>
      (subst h1; exact absurd h (by decide))

theorem stripChars_of_ends {l : List Char} (hl : l ≠ [])
    (hhead : pyIsWs (l.headD ' ') = false) (hlast : pyIsWs (l.getLastD ' ') = false) :
    stripChars l = l := by
  obtain ⟨c, cs, rfl⟩ := List.exists_cons_of_ne_nil hl
  simp only [List.headD_cons] at hhead
  rw [stripChars, List.dropWhile_cons, hhead]
  simp only [Bool.false_eq_true, if_false]
  rcases hrev : (c :: cs).reverse with _ | ⟨d, ds⟩
  · exact absurd (List.reverse_eq_nil_iff.mp hrev) (List.cons_ne_nil c cs)
  · have hopt : (c :: cs).getLast? = some d := by
      have h5 : (c :: cs).getLast? = (c :: cs).reverse.head? := List.getLast?_eq_head?_reverse
      rw [h5, hrev, List.head?_cons]
    have hlast' : pyIsWs d = false := by
      rw [List.getLastD_eq_getLast?, hopt, Option.getD_some] at hlast
      exact hlast
    have hdw : List.dropWhile pyIsWs (d :: ds) = d :: ds := by
      rw [List.dropWhile_cons, hlast']
      simp
    rw [hdw, ← hrev, List.reverse_reverse]

theorem isSubChunkAt_self_append (n b : List Char) :
    isSubChunkAt n (n ++ b) = true := by
  induction n with
  | nil => rfl
  | cons c cs ih => simp [isSubChunkAt, ih]

theorem hasSubChunk_of_head {n t : List Char} (h : isSubChunkAt n t = true) :
    hasSubChunk n t = true := by
  cases t with
  | nil =>
    cases n with
    | nil => rfl
    | cons c cs => exact absurd h (by simp [isSubChunkAt])
  | cons c cs => simp [hasSubChunk, h]

theorem hasSubChunk_append_left {n t : List Char} (a : List Char)
    (h : hasSubChunk n t = true) : hasSubChunk n (a ++ t) = true := by
  induction a with
  | nil => exact h
  | cons c cs ih =>
    rw [List.cons_append]
    show (isSubChunkAt n (c :: (cs ++ t)) || hasSubChunk n (cs ++ t)) = true
    rw [ih, Bool.or_true]

theorem hasSubChunk_sandwich (n a b : List Char) :
    hasSubChunk n (a ++ (n ++ b)) = true :=
  hasSubChunk_append_left a (hasSubChunk_of_head (isSubChunkAt_self_append n b))

theorem mem_purgeStore (c : ℤ) (s : Store) :
    ∀ x ∈ purgeStore c s,
      ∃ e ∈ s, x.1 = e.1 ∧ x.2 = e.2.filter (keepAt c) ∧ x.2 ≠ [] := by
  induction s with
  | nil => intro x hx; simp [purgeStore] at hx
  | cons e s ih =>
    intro x hx
    rw [purgeStore, List.filterMap_cons] at hx
    by_cases hem : (e.2.filter (keepAt c)).isEmpty
    · rw [purgeEntry, if_pos hem] at hx
      obtain ⟨e', he', hprop⟩ := ih x hx
      exact ⟨e', List.mem_cons_of_mem _ he', hprop⟩
    · rw [purgeEntry, if_neg hem] at hx
      rcases List.mem_cons.mp hx with h | h
      · subst h
        refine ⟨e, List.mem_cons_self _ _, rfl, rfl, ?_⟩
        intro hnil
        exact hem (by rw [List.isEmpty_iff]; exact hnil)
      · obtain ⟨e', he', hprop⟩ := ih x h
        exact ⟨e', List.mem_cons_of_mem _ he', hprop⟩

theorem assocFind_purge_none_of_expired {c : ℤ} {k : String} {s : Store}
    (h : ∀ e ∈ s, e.1 = k → ∀ m ∈ e.2, keepAt c m = false) :
    assocFind (purgeStore c s) k = none := by
  rw [assocFind, Option.map_eq_none', List.find?_eq_none]
  intro x hx
  obtain ⟨e, he, h1, h2, h3⟩ := mem_purgeStore c s x hx
  simp only [beq_iff_eq]
  intro hk
  apply h3
  rw [h2]
  rw [List.filter_eq_nil_iff]
  intro m hm
  have := h e he (by rw [← h1, hk]) m hm
  simp [this]

theorem assocFind_purge_none_of_keys {c : ℤ} {k : String} {s : Store}
    (h : k ∉ s.map Prod.fst) : assocFind (purgeStore c s) k = none := by
  apply assocFind_purge_none_of_expired
  intro e he hek
  exact absurd (hek ▸ List.mem_map_of_mem Prod.fst he) h

theorem assocFind_purge_removeKey (c : ℤ) (k : String) (t : Store) :
    assocFind (purgeStore c (removeKey k t)) k = none := by
  apply assocFind_purge_none_of_expired
  intro e he hek
  exfalso
  rw [removeKey] at he
  have := List.of_mem_filter he
  rw [bne_iff_ne] at this
  exact this hek

theorem purgeStore_keys_sublist (c : ℤ) (s : Store) :
    ((purgeStore c s).map Prod.fst).Sublist (s.map Prod.fst) := by
  induction s with
  | nil => simp [purgeStore]
  | cons e s ih =>
    rw [purgeStore, List.filterMap_cons]
    by_cases hem : (e.2.filter (keepAt c)).isEmpty
    · rw [purgeEntry, if_pos hem, List.map_cons]
      exact ih.cons e.1
    · rw [purgeEntry, if_neg hem, List.map_cons, List.map_cons]
      exact ih.cons₂ e.1

theorem purge_keys_nodup {c : ℤ} {s : Store} (h : (s.map Prod.fst).Nodup) :
    ((purgeStore c s).map Prod.fst).Nodup :=
  h.sublist (purgeStore_keys_sublist c s)

theorem appendAt_keys (k : String) (m : PendingMessage) (s : Store) :
    ((appendAt k m s).map Prod.fst = s.map Prod.fst) ∨
    ((appendAt k m s).map Prod.fst = s.map Prod.fst ++ [k]) := by
  induction s with
  | nil => right; simp [appendAt]
  | cons e s ih =>
    by_cases he : e.1 = k
    · left; simp [appendAt, he]
    · rcases ih with h | h
      · left; simp [appendAt, he, h]
      · right; simp [appendAt, he, h]

theorem appendAt_nodup {k : String} {m : PendingMessage} {s : Store}
    (h : (s.map Prod.fst).Nodup) : ((appendAt k m s).map Prod.fst).Nodup := by
  induction s with
  | nil => simp [appendAt]
  | cons e s ih =>
    rw [List.map_cons, List.nodup_cons] at h
    by_cases he : e.1 = k
    · rw [appendAt, if_pos he]
      simp only [List.map_cons, List.nodup_cons]
      exact h
    · rw [appendAt, if_neg he]
      simp only [List.map_cons, List.nodup_cons]
      refine ⟨?_, ih h.2⟩
      rcases appendAt_keys k m s with hk | hk
      · rw [hk]; exact h.1
      · rw [hk]
        simp only [List.mem_append, List.mem_singleton]
        rintro (hmem | rfl)
        · exact h.1 hmem
        · exact he rfl

theorem assocFind_cons (e : String × List PendingMessage) (s : Store) (k : String) :
    assocFind (e :: s) k = if e.1 = k then some e.2 else assocFind s k := by
  by_cases h : e.1 = k
  · rw [if_pos h, assocFind, List.find?_cons_of_pos _ (by simpa using h)]
    rfl
  · rw [if_neg h, assocFind, List.find?_cons_of_neg _ (by simpa using h)]
    rfl

theorem assocFind_appendAt (k : String) (m : PendingMessage) (s : Store) :
    assocFind (appendAt k m s) k = some (((assocFind s k).getD []) ++ [m]) := by
  induction s with
  | nil => simp [appendAt, assocFind]
  | cons e s ih =>
    by_cases he : e.1 = k
    · rw [appendAt, if_pos he]
      rw [assocFind_cons, if_pos he, assocFind_cons, if_pos he]
      rfl
    · rw [appendAt, if_neg he]
      rw [assocFind_cons, if_neg he, assocFind_cons, if_neg he]
      exact ih

theorem assocFind_purge_of_nodup (c : ℤ) (k : String) : ∀ (s : Store),
    (s.map Prod.fst).Nodup →
    (assocFind (purgeStore c s) k).getD []
      = ((assocFind s k).getD []).filter (keepAt c) := by
  intro s
  induction s with
  | nil => intro _; rfl
  | cons e s ih =>
    intro h
    rw [List.map_cons, List.nodup_cons] at h
    rw [purgeStore, List.filterMap_cons]
    by_cases hem : (e.2.filter (keepAt c)).isEmpty
    · rw [purgeEntry, if_pos hem]
      by_cases he : e.1 = k
      · have h1 : assocFind (purgeStore c s) k = none :=
          assocFind_purge_none_of_keys (he ▸ h.1)
        rw [show List.filterMap (purgeEntry c) s = purgeStore c s from rfl, h1]
        rw [assocFind_cons, if_pos he, Option.getD_some]
        rw [List.isEmpty_iff] at hem
        rw [hem]
        rfl
      · rw [show List.filterMap (purgeEntry c) s = purgeStore c s from rfl]
        rw [assocFind_cons, if_neg he]
        exact ih h.2
    · rw [purgeEntry, if_neg hem]
      by_cases he : e.1 = k
      · rw [assocFind_cons (e.1, e.2.filter (keepAt c)), if_pos he]
        rw [assocFind_cons, if_pos he]
        rfl
      · rw [assocFind_cons (e.1, e.2.filter (keepAt c)), if_neg he]
        rw [assocFind_cons, if_neg he]
        rw [show List.filterMap (purgeEntry c) s = purgeStore c s from rfl]
        exact ih h.2

theorem keepAt_mono {c1 c2 : ℤ} (h : c1 ≤ c2) {m : PendingMessage}
    (hk : keepAt c2 m = true) : keepAt c1 m = true := by
  rw [keepAt, decide_eq_true_eq] at hk ⊢
  exact le_trans h hk

theorem filter_keep_collapse {c1 c2 : ℤ} (h : c1 ≤ c2) (l : List PendingMessage) :
    (l.filter (keepAt c1)).filter (keepAt c2) = l.filter (keepAt c2) := by
  rw [List.filter_filter]
  apply List.filter_congr
  intro m _
  cases h2 : keepAt c2 m
  · simp
  · simp [keepAt_mono h h2]

theorem runAdds_pop_list (k : String) (adds : List (ℤ × PendingMessage)) :
    ∀ (s : Store) (ttl : Int) (now : ℤ),
      (s.map Prod.fst).Nodup →
      (∀ a ∈ adds, a.1 ≤ now) →
      ((runAdds k adds ⟨ttl, s⟩).pop_for now k).1
        = (((assocFind s k).getD []) ++ adds.map Prod.snd).filter
            (keepAt (now - (ttl : ℤ))) := by
  induction adds with
  | nil =>
    intro s ttl now hnd _
    show (assocFind (purgeStore (now - (ttl : ℤ)) s) k).getD [] = _
    rw [assocFind_purge_of_nodup _ _ _ hnd]
    simp
  | cons a rest ih =>
    intro s ttl now hnd hts
    have hstep : runAdds k (a :: rest) ⟨ttl, s⟩
        = runAdds k rest ⟨ttl, appendAt k a.2 (purgeStore (a.1 - (ttl : ℤ)) s)⟩ := rfl
    rw [hstep]
    have hnd' : ((appendAt k a.2 (purgeStore (a.1 - (ttl : ℤ)) s)).map Prod.fst).Nodup :=
      appendAt_nodup (purge_keys_nodup hnd)
    rw [ih _ ttl now hnd' (fun b hb => hts b (List.mem_cons_of_mem _ hb))]
    rw [assocFind_appendAt, Option.getD_some]
    rw [assocFind_purge_of_nodup _ _ _ hnd]
    have ha : a.1 ≤ now := hts a (List.mem_cons_self _ _)
    rw [List.map_cons, List.append_assoc, List.filter_append, List.filter_append]
    rw [filter_keep_collapse (by linarith : a.1 - (ttl : ℤ) ≤ now - (ttl : ℤ))]
    rw [← List.filter_append, List.singleton_append, ← List.filter_append]

theorem mem_getd_purge {c : ℤ} {s : Store} {k : String} {m : PendingMessage}
    (hm : m ∈ (assocFind (purgeStore c s) k).getD []) : keepAt c m = true := by
  cases hf : assocFind (purgeStore c s) k with
  | none => rw [hf] at hm; simp at hm
  | some ms =>
    rw [hf, Option.getD_some] at hm
    rw [assocFind] at hf
    obtain ⟨x, hx1, hx2⟩ := Option.map_eq_some'.mp hf
    have hxmem := List.mem_of_find?_eq_some hx1
    obtain ⟨e, _, _, h2, _⟩ := mem_purgeStore c s x hxmem
    rw [← hx2, h2] at hm
    exact (List.mem_filter.mp hm).2

theorem purge_no_empty_entries (c : ℤ) (s : Store) :
    ∀ e ∈ purgeStore c s, e.2 ≠ [] := by
  intro e he
  obtain ⟨_, _, _, _, h3⟩ := mem_purgeStore c s e he
  exact h3

theorem matchesHexId_shape {s : String} (h : matchesHexId s = true) :
    ∃ rest, s.data = '!' :: rest ∧ rest.length = 8 ∧ (∀ c ∈ rest, isHexAny c = true) := by
  cases hd : s.data with
  | nil =>
    exfalso
    rw [matchesHexId, hd] at h
    exact absurd h (by decide)
  | cons c rest =>
    rw [matchesHexId, hd] at h
    simp only [Bool.and_eq_true, beq_iff_eq, List.all_eq_true] at h
    obtain ⟨⟨hc, hlen⟩, hall⟩ := h
    subst hc
    exact ⟨rest, rfl, hlen, hall⟩

theorem pyStrip_of_matchesHexId {s : String} (h : matchesHexId s = true) :
    pyStrip s = s := by
  obtain ⟨rest, hd, hlen, hall⟩ := matchesHexId_shape h
  have hne8 : rest ≠ [] := by
    intro hh
    rw [hh] at hlen
    exact absurd hlen (by decide)
  have hstrip : stripChars s.data = s.data := by
    apply stripChars_of_ends
    · rw [hd]; exact List.cons_ne_nil _ _
    · rw [hd]; simp only [List.headD_cons]; decide
    · rw [hd, List.getLastD_cons]
      have hmem : rest.getLast hne8 ∈ rest := List.getLast_mem hne8
      have hgl : rest.getLastD '!' = rest.getLast hne8 := by
        rw [List.getLastD_eq_getLast?, List.getLast?_eq_getLast _ hne8]
        rfl
      rw [hgl]
      exact hex_not_ws (hall _ hmem)
  rw [pyStrip, hstrip, string_mk_data]

theorem hexDigitChar_props : ∀ d : Nat, d < 16 →
    isHexAny (hexDigitChar d) = true ∧ Char.toLower (hexDigitChar d) = hexDigitChar d := by
  decide

theorem canonicalKey_data (n : Nat) :
    (canonicalKeyOfNum n).data = '!' :: hex8 n := by
  rw [canonicalKeyOfNum, string_data_append]
  rfl

theorem hex8_all_hex (n : Nat) : ∀ c ∈ hex8 n, isHexAny c = true := by
  intro c hc
  rw [hex8] at hc
  simp only [List.mem_cons, List.not_mem_nil, or_false] at hc
  rcases hc with rfl | rfl | rfl | rfl | rfl | rfl | rfl | rfl <;>
    exact (hexDigitChar_props _ (Nat.mod_lt _ (by norm_num))).1

theorem hex8_lower (n : Nat) : (hex8 n).map Char.toLower = hex8 n := by
  rw [hex8]
  simp only [List.map_cons, List.map_nil]
  have hp := fun d (hd : d < 16) => (hexDigitChar_props d hd).2
  rw [hp _ (Nat.mod_lt _ (by norm_num)), hp _ (Nat.mod_lt _ (by norm_num)),
      hp _ (Nat.mod_lt _ (by norm_num)), hp _ (Nat.mod_lt _ (by norm_num)),
      hp _ (Nat.mod_lt _ (by norm_num)), hp _ (Nat.mod_lt _ (by norm_num)),
      hp _ (Nat.mod_lt _ (by norm_num)), hp _ (Nat.mod_lt _ (by norm_num))]

theorem hex8_length (n : Nat) : (hex8 n).length = 8 := rfl

theorem matchesHexId_canonicalKey (n : Nat) :
    matchesHexId (canonicalKeyOfNum n) = true := by
  have hd := canonicalKey_data n
  rw [matchesHexId, hd]
  show (('!' : Char) == '!' && (hex8 n).length == 8 && (hex8 n).all isHexAny) = true
  simp only [Bool.and_eq_true, beq_iff_eq, List.all_eq_true]
  exact ⟨⟨trivial, hex8_length n⟩, hex8_all_hex n⟩

theorem lowerStr_canonicalKey (n : Nat) :
    lowerStr (canonicalKeyOfNum n) = canonicalKeyOfNum n := by
  rw [lowerStr, canonicalKey_data, List.map_cons, hex8_lower]
  rw [show Char.toLower '!' = '!' from by decide]
  rfl

theorem canonicalKey_ne_empty (n : Nat) : canonicalKeyOfNum n ≠ "" := by
  intro h
  have hdata : (canonicalKeyOfNum n).data = [] := by rw [h]
  rw [canonicalKey_data] at hdata
  exact List.cons_ne_nil _ _ hdata

theorem assocFind_removeKey (k : String) (t : Store) :
    assocFind (removeKey k t) k = none := by
  rw [assocFind, Option.map_eq_none', List.find?_eq_none]
  intro x hx
  rw [removeKey] at hx
  have := List.of_mem_filter hx
  rw [bne_iff_ne] at this
  simp only [beq_iff_eq]
  exact this

/-! Concrete fixtures for witnesses and counterexamples. -/

/-- The default configuration of load_config: channel 1, prefix "!",
max_reply_len 220, one-week mailbox ttl, default place Prague. -/
def cfgDefault : BotCfg := ⟨1, "!", 220, 604800, "Prague"⟩

/-- An environment with no external data available. -/
def envEmpty : Env := ⟨none, fun _ => "", none, none, none⟩

/-- An empty mailbox with the default one-week ttl. -/
def mbEmpty : Mailbox := ⟨604800, []⟩

/-- A mailbox with ttl 10 holding one message created at time 0. -/
def mbBoundary : Mailbox := ⟨10, [("k", [⟨0, "a", "hi"⟩])]⟩

/-! Claim theorems. -/

/-- C6 counterexample: with configured max reply length 0, the reply "ab" is
longer than the limit but clamp returns the 1-character marker string, not a
string of exactly length 0. -/
theorem clamp_exact_length_counterexample :
    0 < ("ab" : String).length ∧ (clamp "ab" 0).length = 1 ∧
      ¬ (clamp "ab" 0).length = 0 := by decide

/-- C6 (amended: for configured max reply length at least 1): a reply within
the limit is left unchanged by clamp, and a longer reply is truncated to a
string of exactly the limit's length whose final character is the ellipsis
marker. At limit 0 the code instead produces the 1-character marker. -/
theorem clamp_truncates (s : String) (n : Nat) :
    (s.length ≤ n → clamp s n = s) ∧
    (1 ≤ n → n < s.length →
      (clamp s n).length = n ∧ (clamp s n).data.getLast? = some '…') := by
  constructor
  · intro h
    exact clamp_of_le h
  · intro h1 h2
    exact ⟨clamp_length_of_lt h1 h2, clamp_last_of_lt h2⟩

/-- C6 witness: clamping the 6-character reply "abcdef" at limit 3 gives a
3-character string ending in the marker. -/
theorem clamp_truncates_witness :
    (1 ≤ 3 ∧ 3 < ("abcdef" : String).length) ∧
    (clamp "abcdef" 3).length = 3 ∧ (clamp "abcdef" 3).data.getLast? = some '…' :=
  ⟨by decide, (clamp_truncates "abcdef" 3).2 (by decide) (by decide)⟩

/-- C1 counterexample: at the moment exactly ttl_seconds (10) after
created_at (0), get_for still returns the message and the key is still
present, because _purge keeps messages with created_ts >= now - ttl. -/
theorem mailbox_ttl_boundary_counterexample :
    (mbBoundary.ttl_seconds ≤ (10 : ℤ) - (0 : ℤ)) ∧
    (⟨0, "a", "hi"⟩ : PendingMessage) ∈ (mbBoundary.get_for 10 "k").1 ∧
    assocFind ((mbBoundary.get_for 10 "k").2).store "k" = some [⟨0, "a", "hi"⟩] := by
  decide

/-- C1 (amended to strict excess): a message strictly older than ttl_seconds
is never returned by get_for or pop_for; if every message stored under the
key is strictly expired, the key is absent from the store after the call;
and a purge never leaves a key mapped to an empty sequence. -/
theorem mailbox_ttl_strict (mb : Mailbox) (now : ℤ) (k : String) (m : PendingMessage) :
    (mb.ttl_seconds < now - m.created_ts →
      m ∉ (mb.get_for now k).1 ∧ m ∉ (mb.pop_for now k).1) ∧
    ((∀ e ∈ mb.store, e.1 = k → ∀ m' ∈ e.2, mb.ttl_seconds < now - m'.created_ts) →
      assocFind ((mb.get_for now k).2).store k = none ∧
      assocFind ((mb.pop_for now k).2).store k = none) ∧
    (∀ e ∈ (mb.purge now).store, e.2 ≠ []) := by
  refine ⟨?_, ?_, purge_no_empty_entries _ _⟩
  · intro h
    have hni : m ∉ (assocFind (purgeStore (now - mb.ttl_seconds) mb.store) k).getD [] := by
      intro hm
      have hk := mem_getd_purge hm
      rw [keepAt, decide_eq_true_eq] at hk
      omega
    exact ⟨hni, hni⟩
  · intro h
    have hexp : ∀ e ∈ mb.store, e.1 = k → ∀ m' ∈ e.2,
        keepAt (now - mb.ttl_seconds) m' = false := by
      intro e he hek m' hm'
      rw [keepAt, decide_eq_false_iff_not]
      have := h e he hek m' hm'
      omega
    exact ⟨assocFind_purge_none_of_expired hexp, assocFind_removeKey _ _⟩

/-- C1 witness: with ttl 10, a message created at 0 and read at 12 is not
returned and its key is removed from the store. -/
theorem mailbox_ttl_strict_witness :
    (⟨0, "a", "hi"⟩ : PendingMessage) ∉ (mbBoundary.get_for 12 "k").1 ∧
    assocFind ((mbBoundary.get_for 12 "k").2).store "k" = none := by
  have h := mailbox_ttl_strict mbBoundary 12 "k" ⟨0, "a", "hi"⟩
  exact ⟨(h.1 (by decide)).1, (h.2.1 (by decide)).1⟩

theorem pop_for_pop_for (mb : Mailbox) (now now2 : ℤ) (k : String) :
    (((mb.pop_for now k).2).pop_for now2 k).1 = [] := by
  simp only [Mailbox.pop_for, Mailbox.purge]
  rw [assocFind_purge_removeKey]
  rfl

/-- C2: starting from an empty mailbox, a sequence of add calls for key k at
times no later than the pop time, followed by one pop_for at time now,
returns exactly the added messages not yet expired at now (created_ts >=
now - ttl), in insertion order; an immediately following second pop_for for
the same key returns the empty sequence. -/
theorem mailbox_delivery_exactly_once (ttl : Int) (k : String)
    (adds : List (ℤ × PendingMessage)) (now now2 : ℤ)
    (h : ∀ a ∈ adds, a.1 ≤ now) :
    ((runAdds k adds ⟨ttl, []⟩).pop_for now k).1
      = (adds.map Prod.snd).filter (keepAt (now - ttl)) ∧
    ((((runAdds k adds ⟨ttl, []⟩).pop_for now k).2).pop_for now2 k).1 = [] := by
  constructor
  · have hmain := runAdds_pop_list k adds [] ttl now (by simp) h
    simpa using hmain
  · exact pop_for_pop_for _ now now2 k

/-- C2 witness: ttl 10, add a message created at 0 and one created at 6, pop
at time 12: only the second (created 6 >= 12 - 10) is delivered; a second pop
returns nothing. -/
theorem mailbox_delivery_exactly_once_witness :
    ((runAdds "k" [(0, ⟨0, "s", "m1"⟩), (6, ⟨6, "s", "m2"⟩)] ⟨10, []⟩).pop_for 12 "k").1
      = [⟨6, "s", "m2"⟩] ∧
    ((((runAdds "k" [(0, ⟨0, "s", "m1"⟩), (6, ⟨6, "s", "m2"⟩)] ⟨10, []⟩).pop_for 12 "k").2).pop_for 12 "k").1
      = [] := by
  have h := mailbox_delivery_exactly_once 10 "k"
    [(0, ⟨0, "s", "m1"⟩), (6, ⟨6, "s", "m2"⟩)] 12 12 (by decide)
  exact ⟨h.1.trans (by decide), h.2⟩

/-- C3: a packet whose extracted channel index is absent or differs from the
configured monitored channel has no effect: the mailbox is unchanged and
nothing is sent, so no delivery, no dispatch and no state change occur. -/
theorem router_channel_isolation (cfg : BotCfg) (env : Env) (nodes : Nodes)
    (now started : ℤ) (p : Packet) (mb : Mailbox)
    (h : p.channelIdx ≠ some cfg.channel_index) :
    onReceive cfg env nodes now started p mb = (mb, []) := by
  rw [onReceive]
  cases hc : p.channelIdx with
  | none => rfl
  | some ch =>
    have hne : ch ≠ cfg.channel_index := fun he => h (by rw [hc, he])
    exact if_neg hne

/-- A "!ping" packet on channel 2 from a known sender. -/
def pktWrongCh : Packet := ⟨some 2, some "!ping", some (.str "!11223344"), none, none, none⟩

/-- C3 witness: with channel 1 monitored, the channel-2 packet is dropped. -/
theorem router_channel_isolation_witness :
    onReceive cfgDefault envEmpty [] 1000 900 pktWrongCh mbEmpty = (mbEmpty, []) :=
  router_channel_isolation cfgDefault envEmpty [] 1000 900 pktWrongCh mbEmpty (by decide)

/-- C4: for a node number below 2^32 (the sender field's machine width), a
packet carrying the sender as that integer and a packet carrying it as the
canonical pre-formatted hex string produce the same canonical sender key at
both extraction sites (the router's dispatch key and the delivery key), and
that key is canonical: it matches the hex-id pattern and lowercasing leaves
it unchanged. -/
theorem sender_key_normalization (n : Nat) (p q : Packet)
    (_hn : n < 4294967296)
    (hp : pyOrVal p.fromId p.fromRaw = some (.int n))
    (hq : pyOrVal q.fromId q.fromRaw = some (.str (canonicalKeyOfNum n))) :
    routerSenderKey p = canonicalKeyOfNum n ∧
    routerSenderKey q = canonicalKeyOfNum n ∧
    deliverySenderKey p = some (canonicalKeyOfNum n) ∧
    deliverySenderKey q = some (canonicalKeyOfNum n) ∧
    matchesHexId (canonicalKeyOfNum n) = true ∧
    lowerStr (canonicalKeyOfNum n) = canonicalKeyOfNum n := by
  refine ⟨?_, ?_, ?_, ?_, matchesHexId_canonicalKey n, lowerStr_canonicalKey n⟩
  · rw [routerSenderKey, hp]
    rfl
  · rw [routerSenderKey, hq]
    rfl
  · rw [deliverySenderKey, hp]
    exact if_neg (canonicalKey_ne_empty n)
  · rw [deliverySenderKey, hq]
    exact if_neg (canonicalKey_ne_empty n)

/-- A packet whose sender field holds the integer node number 0xa1b2c3d4. -/
def pktIntSender : Packet := ⟨some 1, none, some (.int 2712847316), none, none, none⟩

/-- A packet whose sender field holds the hex string id "!a1b2c3d4". -/
def pktStrSender : Packet := ⟨some 1, none, some (.str "!a1b2c3d4"), none, none, none⟩

/-- C4 witness: node 0xa1b2c3d4 as integer and as its hex string normalize to
the same key. -/
theorem sender_key_normalization_witness :
    routerSenderKey pktIntSender = canonicalKeyOfNum 2712847316 ∧
    routerSenderKey pktStrSender = canonicalKeyOfNum 2712847316 ∧
    deliverySenderKey pktIntSender = some (canonicalKeyOfNum 2712847316) := by
  have h := sender_key_normalization 2712847316 pktIntSender pktStrSender
    (by decide) (by decide) (by decide)
  exact ⟨h.1, h.2.1, h.2.2.1⟩

/-- A qualifying packet: monitored channel 1, text "hello", known sender. -/
def pktHello : Packet := ⟨some 1, some "hello", some (.str "!11223344"), none, none, none⟩

/-- C5 evaluation at the failing input: a qualifying packet is processed to
completion, yet the bot state after on_receive equals the input state and
nothing is sent. The embedded MeshBot carries no session-state component
because the source class defines none: no seen[sender] write and no
messages_seen increment happens on any path of on_receive. -/
theorem onReceive_no_session_update :
    onReceive cfgDefault envEmpty [] 1000 900 pktHello mbEmpty = (mbEmpty, []) := by
  decide

/-- C7: a token matching the canonical hex-id pattern resolves to its
lowercased self as the canonical key, whatever the directory contains. -/
theorem resolve_hexid_idempotent (nodes : Nodes) (token : String)
    (h : matchesHexId token = true) :
    (resolve_target nodes token).1 = some (lowerStr token) := by
  simp [resolve_target, pyStrip_of_matchesHexId h, h]

/-- C7 witness: "!A1B2C3D4" resolves to "!a1b2c3d4" on an empty directory. -/
theorem resolve_hexid_idempotent_witness :
    matchesHexId "!A1B2C3D4" = true ∧
    (resolve_target [] "!A1B2C3D4").1 = some (lowerStr "!A1B2C3D4") :=
  ⟨by decide, resolve_hexid_idempotent [] "!A1B2C3D4" (by decide)⟩

/-- C8: for a token that is neither a hex id nor a case-insensitive match of
any directory entry's long or short name, resolve_target returns
(none, none); and for a key that is neither a directory key nor any entry's
user.id, lookup_node_name returns none. Both absences are ordinary return
values of the embedded total functions, not raised failures. -/
theorem resolver_not_found_total (nodes : Nodes) (token key : String)
    (h1 : matchesHexId (pyStrip token) = false)
    (h2 : ∀ e ∈ nodes, lowerStr (entryLong e.2) ≠ lowerStr (pyStrip token) ∧
                        lowerStr (entryShort e.2) ≠ lowerStr (pyStrip token))
    (h3 : ∀ e ∈ nodes, e.1 ≠ key ∧ userId e.2 ≠ some key) :
    resolve_target nodes token = (none, none) ∧ lookup_node_name nodes key = none := by
  constructor
  · have hf : nodes.find? (fun e =>
        lowerStr (entryLong e.2) == lowerStr (pyStrip token) ||
        lowerStr (entryShort e.2) == lowerStr (pyStrip token)) = none := by
      rw [List.find?_eq_none]
      intro e he
      simp only [Bool.or_eq_true, beq_iff_eq]
      rintro (hh | hh)
      · exact (h2 e he).1 hh
      · exact (h2 e he).2 hh
    simp [resolve_target, h1, hf]
  · have hf1 : nodes.find? (fun e => e.1 == key) = none := by
      rw [List.find?_eq_none]
      intro e he
      simpa using (h3 e he).1
    have hf2 : nodes.find? (fun e => userId e.2 == some key) = none := by
      rw [List.find?_eq_none]
      intro e he
      simpa using (h3 e he).2
    simp [lookup_node_name, hf1, hf2]

/-- A one-entry directory: node "!aabbccdd" named "Alpha Node" / "AN". -/
def nodesSample : Nodes :=
  [("!aabbccdd", ⟨some ⟨some "!aabbccdd", some "Alpha Node", some "AN"⟩⟩)]

/-- C8 witness: the token "ghost" and the key "!00000001" match nothing. -/
theorem resolver_not_found_total_witness :
    resolve_target nodesSample "ghost" = (none, none) ∧
    lookup_node_name nodesSample "!00000001" = none :=
  resolver_not_found_total nodesSample "ghost" "!00000001"
    (by decide) (by decide) (by decide)

/-- C9 (amended with a fit condition): dispatching a command whose name is
not in the command set sends exactly one reply, the clamp of the
unknown-command text, and leaves the mailbox unchanged (no handler runs and
the bot holds no further mutable state). Whenever the full reply fits the
configured max reply length (31 characters of fixed text plus the command
name) the sent reply is that text unchanged and contains the literal command
name; a longer command name can be cut off by the clamp. -/
theorem unknown_command_reply (cfg : BotCfg) (env : Env) (nodes : Nodes)
    (now started : ℤ) (p : Packet) (sk cmd : String) (args : List String)
    (mb : Mailbox)
    (h : cmd ∉ ["help", "?", "ping", "whoami", "nodes", "uptime", "weather", "air", "msg", "inbox"]) :
    runCommand cfg env nodes now started p sk cmd args mb
      = (mb, [clamp (unknownReply cmd) cfg.max_reply_len]) ∧
    (31 + cmd.length ≤ cfg.max_reply_len →
      clamp (unknownReply cmd) cfg.max_reply_len = unknownReply cmd ∧
      hasSubChunk cmd.data (unknownReply cmd).data = true) := by
  simp only [List.mem_cons, List.not_mem_nil, not_or, or_false] at h
  obtain ⟨h1, h2, h3, h4, h5, h6, h7, h8, h9, h10⟩ := h
  constructor
  · rw [runCommand, if_neg (not_or.mpr ⟨h1, h2⟩), if_neg h3, if_neg h4, if_neg h5,
        if_neg h6, if_neg h7, if_neg h8, if_neg h9, if_neg h10]
    rfl
  · intro hfit
    have hlen : (unknownReply cmd).length = 31 + cmd.length := by
      rw [unknownReply, string_length_append, string_length_append]
      rw [show ("❓ Unknown command '" : String).length = 19 from by decide]
      rw [show ("'. Try !help" : String).length = 12 from by decide]
      omega
    constructor
    · exact clamp_of_le (by omega)
    · have hdata : (unknownReply cmd).data
          = ("❓ Unknown command '" : String).data
            ++ (cmd.data ++ ("'. Try !help" : String).data) := by
        rw [unknownReply, string_data_append, string_data_append, List.append_assoc]
      rw [hdata]
      exact hasSubChunk_sandwich _ _ _

/-- C9 counterexample: with the default max reply length 220 and a
201-character command name, the single unknown-command reply is clamped and
no longer contains the literal command name. -/
theorem unknown_command_containment_counterexample :
    (runCommand cfgDefault envEmpty [] 0 0 pktHello "!11223344"
        (String.mk (List.replicate 201 'x')) [] mbEmpty).2.length = 1 ∧
    hasSubChunk (String.mk (List.replicate 201 'x')).data
      (((runCommand cfgDefault envEmpty [] 0 0 pktHello "!11223344"
        (String.mk (List.replicate 201 'x')) [] mbEmpty).2.headD "").data) = false := by
  decide

/-- C9 witness: dispatching the unknown command "bogus" with the default
configuration sends exactly the unknown-command reply, which contains
"bogus", and leaves the mailbox unchanged. -/
theorem unknown_command_reply_witness :
    runCommand cfgDefault envEmpty [] 0 0 pktHello "!11223344" "bogus" [] mbEmpty
      = (mbEmpty, [clamp (unknownReply "bogus") cfgDefault.max_reply_len]) ∧
    clamp (unknownReply "bogus") cfgDefault.max_reply_len = unknownReply "bogus" ∧
    hasSubChunk ("bogus" : String).data (unknownReply "bogus").data = true := by
  have h := unknown_command_reply cfgDefault envEmpty [] 0 0 pktHello "!11223344"
    "bogus" [] mbEmpty (by decide)
  exact ⟨h.1, h.2 (by decide)⟩

/-- C10: whenever cmd_msg stores a message (at least two arguments,
non-empty joined text, resolvable target), the stored PendingMessage text is
the clamp at 400 of the joined message text: its length never exceeds 400,
and for input text longer than 400 characters the stored text has length
exactly 400 and ends in the truncation marker. The configured max reply
length (arbitrary in cfg here) plays no role in what is stored. -/
theorem cmd_msg_clamps_400 (cfg : BotCfg) (nodes : Nodes) (now : ℤ)
    (sk : String) (args : List String) (mb : Mailbox) (k : String)
    (nm : Option String)
    (h1 : 2 ≤ args.length)
    (h2 : pyStrip (joinWith " " args.tail) ≠ "")
    (h3 : resolve_target nodes (args.headD "") = (some k, nm)) :
    (cmd_msg cfg nodes now sk args mb).1
      = mb.add now k ⟨now, fromDisplayOf nodes sk,
          clamp (pyStrip (joinWith " " args.tail)) 400⟩ ∧
    (clamp (pyStrip (joinWith " " args.tail)) 400).length ≤ 400 ∧
    (400 < (pyStrip (joinWith " " args.tail)).length →
      (clamp (pyStrip (joinWith " " args.tail)) 400).length = 400 ∧
      (clamp (pyStrip (joinWith " " args.tail)) 400).data.getLast? = some '…') := by
  refine ⟨?_, clamp_length_le (by omega), ?_⟩
  · simp only [cmd_msg]
    rw [if_neg (by omega : ¬ args.length < 2), if_neg h2, h3]
  · intro hlong
    exact ⟨clamp_length_of_lt (by omega) hlong, clamp_last_of_lt hlong⟩

/-- C10 witness: "!msg !aabbccdd hello there" stores the message with text
clamp("hello there", 400), of length at most 400. -/
theorem cmd_msg_clamps_400_witness :
    (cmd_msg cfgDefault nodesSample 100 "!11223344"
        ["!aabbccdd", "hello", "there"] mbEmpty).1
      = mbEmpty.add 100 "!aabbccdd"
          ⟨100, fromDisplayOf nodesSample "!11223344",
           clamp (pyStrip (joinWith " " ["hello", "there"])) 400⟩ ∧
    (clamp (pyStrip (joinWith " " ["hello", "there"])) 400).length ≤ 400 := by
  have h := cmd_msg_clamps_400 cfgDefault nodesSample 100 "!11223344"
    ["!aabbccdd", "hello", "there"] mbEmpty "!aabbccdd" (some "AN")
    (by decide) (by decide) (by decide)
  exact ⟨h.1, h.2.1⟩
